import Mathlib

/-!
Verification of the session/IPC protocol core of the `coroiu/clients`
repository, against its natural-language specification.

Two components are embedded:

* the Framed IPC Client
  (`apps/desktop/native-messaging-test-runner/src/ipc.service.ts`), and
* the FIDO2 Session Broker
  (`BrowserFido2UserInterfaceSession` in
  `browser-fido2-user-interface.service.ts`).

The embedding is shallow: mutable class fields become an explicit state
record, Node `Buffer` values become `List Nat` byte lists, and each event
handler or method becomes a function from state to state plus a list of
observable effects.  External collaborators (JSON parsing and
serialization, the spawned process, the browser message bus) are
parameters or plain data.
-/

namespace IPC

/-- Connection state of the IPC socket, mirroring `IPCConnectionState`
(`ipc.service.ts` lines 35-39). -/
inductive IPCConnectionState
  | disconnected
  | connecting
  | connected
deriving DecidableEq, Repr

/-- A decoded JSON message as the dispatch code observes it: the code only
inspects the optional `command` and `messageId` fields
(`ipc.service.ts` lines 199, 208, 222); `body` stands for all remaining
payload content. -/
structure Msg where
  command : Option String := none
  messageId : Option String := none
  body : String := ""
deriving DecidableEq, Repr

/-- The mutable fields of `IPCService` (`ipc.service.ts` lines 45-57).
`pendingMessages` keeps the keys of the pending-request map (each key owns
one deferred), `awaitingConnection` the size of the set of deferreds
awaiting connection, `processOutputBuffer` the reassembly byte buffer, and
`spawnCount` counts how many worker processes have been spawned. -/
structure IPCState where
  connectionState : IPCConnectionState := .disconnected
  pendingMessages : List String := []
  awaitingConnection : Nat := 0
  processOutputBuffer : List Nat := []
  spawnCount : Nat := 0
deriving DecidableEq, Repr

/-- Observable effects of one step of the service. -/
inductive Obs
  | wireWrite (bytes : List Nat)
  | callerRejectedDuplicate (id : String)
  | callerRejectedTimeout (id : String)
  | deferredResolved (id : String) (m : Msg)
  | unsolicited (m : Msg)
  | connectWaitersResolved (n : Nat)
  | connectWaitersRejected (n : Nat)
  | parseException
deriving DecidableEq, Repr

/-- Model of `buffer.readUInt32LE(0)`: little-endian 32-bit read of the
first four bytes (each list cell is a uint8 value). -/
def readUInt32LE (buf : List Nat) : Nat :=
  buf.getD 0 0 + 256 * buf.getD 1 0 + 65536 * buf.getD 2 0 +
    16777216 * buf.getD 3 0

/-- Model of `buffer.writeUInt32LE(n, 0)`: the four little-endian bytes of
`n` (the JS call throws for values outside the uint32 range; taking each
byte modulo 256 caps the encoding at 32 bits). -/
def writeUInt32LE (n : Nat) : List Nat :=
  [n % 256, n / 256 % 256, n / 65536 % 256, n / 16777216 % 256]

/-- JS `String.prototype.length` counts UTF-16 code units: characters above
U+FFFF take two units, all others one.  The embedding represents a JS
string by its list of Unicode code points. -/
def utf16Len : List Char → Nat
  | [] => 0
  | c :: cs => (if c.toNat < 0x10000 then 1 else 2) + utf16Len cs

/-- The UTF-8 encoding of one code point, as byte values. -/
def utf8CharBytes (c : Char) : List Nat :=
  let n := c.toNat
  if n < 0x80 then [n]
  else if n < 0x800 then [0xC0 + n / 0x40, 0x80 + n % 0x40]
  else if n < 0x10000 then
    [0xE0 + n / 0x1000, 0x80 + n / 0x40 % 0x40, 0x80 + n % 0x40]
  else
    [0xF0 + n / 0x40000, 0x80 + n / 0x1000 % 0x40, 0x80 + n / 0x40 % 0x40,
      0x80 + n % 0x40]

/-- The UTF-8 encoding of a whole string. -/
def utf8Bytes : List Char → List Nat
  | [] => []
  | c :: cs => utf8CharBytes c ++ utf8Bytes cs

/-- Model of `buffer.write(s, offset)` into a buffer with `cap` bytes of
room: Node writes the UTF-8 encoding of `s` but, when the buffer is too
small, writes only whole encoded characters that fit and silently drops
the rest. -/
def bufferWrite (cap : Nat) : List Char → List Nat
  | [] => []
  | c :: cs =>
    let bs := utf8CharBytes c
    if bs.length ≤ cap then bs ++ bufferWrite (cap - bs.length) cs else []

/-- Embedding of `IPCService.sendIpcMessage` (`ipc.service.ts` lines
168-175) applied to the already serialized JSON text `s` (serialization by
`JSON.stringify` is external).  The code allocates a zero-filled buffer of
`4 + s.length` bytes, writes `s.length` (UTF-16 code units) as a
little-endian uint32 prefix, then writes the UTF-8 bytes of `s` into the
remaining room; bytes never written stay zero. -/
def sendIpcMessage (s : List Char) : List Nat :=
  let len := utf16Len s
  let written := bufferWrite len s
  writeUInt32LE len ++ written ++ List.replicate (len - written.length) 0

/-- The wire encoding as the specification words it (section 4.2, Framing
format): a 4-byte little-endian prefix holding the byte count of the UTF-8
JSON text, immediately followed by exactly those bytes.  Stated separately
from `sendIpcMessage` so the two can be compared. -/
def specWireEncoding (s : List Char) : List Nat :=
  writeUInt32LE (utf8Bytes s).length ++ utf8Bytes s

/-- JS truthiness of the `messageId` field as used in
`if (message.messageId && ...)` (`ipc.service.ts` line 222): an absent
field and the empty string are falsy. -/
def msgIdTruthy : Option String → Bool
  | none => false
  | some s => s ≠ ""

/-- Embedding of `IPCService.processMessage` (`ipc.service.ts` lines
218-233): a message whose truthy `messageId` matches a pending entry
resolves that deferred and removes the entry; every other message goes to
the unsolicited-message handler. -/
def processMessage (st : IPCState) (m : Msg) : IPCState × List Obs :=
  let mid := m.messageId.getD ""
  if msgIdTruthy m.messageId && st.pendingMessages.contains mid then
    ({ st with pendingMessages := st.pendingMessages.erase mid },
      [.deferredResolved mid m])
  else
    (st, [.unsolicited m])

/-- Embedding of the per-message dispatch inside
`IPCService.processIpcMessage` (`ipc.service.ts` lines 198-214): the
reserved commands `connected` and `disconnected` are handled before the
generic `processMessage` dispatch. -/
def handleDecoded (st : IPCState) (m : Msg) : IPCState × List Obs :=
  if m.command = some "connected" then
    ({ st with connectionState := .connected, awaitingConnection := 0 },
      [.connectWaitersResolved st.awaitingConnection])
  else if m.command = some "disconnected" then
    ({ st with connectionState := .disconnected }, [])
  else
    processMessage st m

/-- Embedding of the reassembly loop of `IPCService.processIpcMessage`
(`ipc.service.ts` lines 182-215), run on the concatenated buffer `buf`.
The code transcribed step by step: with fewer than 4 buffered bytes it
returns; it reads the 4-byte length `msgLength` and returns when
`msgLength + 4 < buffer.length` (line 188, transcribed exactly as
written); otherwise it slices `subarray(4, msgLength + 4)` (which Node
clamps to the available bytes), parses it as JSON (`parse` is the external
`JSON.parse`; `none` models a thrown `SyntaxError`, which aborts the
handler before the buffer field is trimmed), stores the remaining bytes,
dispatches the decoded message, and loops. -/
def ipcLoop (parse : List Nat → Option Msg) (buf : List Nat)
    (st : IPCState) : IPCState × List Obs :=
  if _h4 : buf.length < 4 then ({ st with processOutputBuffer := buf }, [])
  else
    let msgLength := readUInt32LE buf
    if msgLength + 4 < buf.length then
      ({ st with processOutputBuffer := buf }, [])
    else
      match parse ((buf.drop 4).take msgLength) with
      | none => ({ st with processOutputBuffer := buf }, [.parseException])
      | some m =>
        let rest := buf.drop (msgLength + 4)
        let r1 := handleDecoded { st with processOutputBuffer := rest } m
        let r2 := ipcLoop parse rest r1.1
        (r2.1, r1.2 ++ r2.2)
termination_by buf.length
decreasing_by
  simp only [List.length_drop]
  omega

/-- Embedding of `IPCService.processIpcMessage` (`ipc.service.ts` lines
177-216): one `data` event appends the chunk to the buffer and runs the
reassembly loop. -/
def processIpcMessage (parse : List Nat → Option Msg) (st : IPCState)
    (data : List Nat) : IPCState × List Obs :=
  ipcLoop parse (st.processOutputBuffer ++ data) st

/-- Outcome of one call to `connect()` as seen by that caller. -/
inductive ConnectCallResult
  | resolvedImmediately
  | pendingWaiter
deriving DecidableEq, Repr

/-- Embedding of `IPCService.connect` together with the synchronous part
of `_connect` (`ipc.service.ts` lines 64-94): when already connected the
call returns at once; otherwise a deferred joins `awaitingConnection`, and
only from the disconnected state is a worker process spawned (and the
state moved to connecting). -/
def connect (st : IPCState) : IPCState × ConnectCallResult :=
  if st.connectionState = .connected then (st, .resolvedImmediately)
  else
    let st1 := { st with awaitingConnection := st.awaitingConnection + 1 }
    if st.connectionState = .disconnected then
      ({ st1 with connectionState := .connecting,
                  spawnCount := st1.spawnCount + 1 }, .pendingWaiter)
    else (st1, .pendingWaiter)

/-- Embedding of the process `error` handler (`ipc.service.ts` lines
103-115): every deferred awaiting connection is rejected with the process
error and the set is cleared. -/
def onProcessError (st : IPCState) : IPCState × List Obs :=
  ({ st with awaitingConnection := 0 },
    [.connectWaitersRejected st.awaitingConnection])

/-- Embedding of the synchronous prefix of `IPCService.sendMessage`
(`ipc.service.ts` lines 130-147): a `messageId` already pending throws at
once, before the deferred is created and before anything is written;
otherwise the pending entry is registered and the framed message is
written to the process input stream.  `serialize` is the external
`JSON.stringify`; `MessageCommon` always carries a string `messageId`. -/
def sendMessageCall (serialize : Msg → List Char) (st : IPCState)
    (m : Msg) : IPCState × List Obs :=
  let mid := m.messageId.getD ""
  if st.pendingMessages.contains mid then
    (st, [.callerRejectedDuplicate mid])
  else
    ({ st with pendingMessages := st.pendingMessages ++ [mid] },
      [.wireWrite (sendIpcMessage (serialize m))])

/-- Embedding of what happens in `IPCService.sendMessage` when the race
timeout fires (`ipc.service.ts` lines 149-162).  The body reads
`return race({...})` inside a `try` block without `await`: the `try`
frame is exited the moment the promise object is returned, so when the
race later rejects with the timeout error that rejection propagates to
the caller of `sendMessage` directly and the `catch` block (which would
run `this.pendingMessages.delete(message.messageId)`, line 160) is never
executed — only a synchronous throw while invoking `race` itself could
reach it.  The observable outcome of the timer firing is therefore the
rejection of the caller with the timeout error, with the service state
left unchanged. -/
def onTimeoutFires (st : IPCState) (mid : String) : IPCState × List Obs :=
  (st, [.callerRejectedTimeout mid])

/-- The timeout behavior as the specification words it (section 4.2): on
timeout the pending entry is removed and the caller is rejected with a
timeout error.  Stated separately from `onTimeoutFires` so the two can be
compared. -/
def onTimeoutFiresSpec (st : IPCState) (mid : String) :
    IPCState × List Obs :=
  ({ st with pendingMessages := st.pendingMessages.erase mid },
    [.callerRejectedTimeout mid])

end IPC

namespace Fido2

/-- The variant part of `BrowserFido2Message`
(`browser-fido2-user-interface.service.ts` lines 40-112): a discriminated
union whose variants carry credential ids, names, verification flags and
outcome flags. -/
inductive Fido2Data
  | connectResponse
  | newSessionCreatedRequest
  | pickCredentialRequest (cipherIds : List String)
      (userVerification : Bool) (fallbackSupported : Bool)
  | pickCredentialResponse (cipherId : Option String) (userVerified : Bool)
  | confirmNewCredentialRequest (credentialName userName : String)
      (userVerification fallbackSupported : Bool)
  | confirmNewCredentialResponse (userVerified : Bool)
  | confirmNewNonDiscoverableCredentialRequest
      (credentialName userName : String)
      (userVerification fallbackSupported : Bool)
  | confirmNewNonDiscoverableCredentialResponse (cipherId : String)
      (userVerified : Bool)
  | informExcludedCredentialRequest (existingCipherIds : List String)
      (fallbackSupported : Bool)
  | informCredentialNotFoundRequest (fallbackSupported : Bool)
  | abortRequest
  | abortResponse (fallbackRequested : Bool)
  | logInRequest (userVerification : Bool)
  | logInResponse (userVerified : Bool)
deriving DecidableEq, Repr

/-- The `type` discriminant string of each variant of the union. -/
def Fido2Data.typeName : Fido2Data → String
  | .connectResponse => "ConnectResponse"
  | .newSessionCreatedRequest => "NewSessionCreatedRequest"
  | .pickCredentialRequest .. => "PickCredentialRequest"
  | .pickCredentialResponse .. => "PickCredentialResponse"
  | .confirmNewCredentialRequest .. => "ConfirmNewCredentialRequest"
  | .confirmNewCredentialResponse .. => "ConfirmNewCredentialResponse"
  | .confirmNewNonDiscoverableCredentialRequest .. =>
      "ConfirmNewNonDiscoverableCredentialRequest"
  | .confirmNewNonDiscoverableCredentialResponse .. =>
      "ConfirmNewNonDiscoverableCredentialResponse"
  | .informExcludedCredentialRequest .. => "InformExcludedCredentialRequest"
  | .informCredentialNotFoundRequest .. => "InformCredentialNotFoundRequest"
  | .abortRequest => "AbortRequest"
  | .abortResponse .. => "AbortResponse"
  | .logInRequest .. => "LogInRequest"
  | .logInResponse .. => "LogInResponse"

/-- A message on the process-wide broadcast channel: every variant carries
a `sessionId` (`browser-fido2-user-interface.service.ts` line 40). -/
structure BrowserFido2Message where
  sessionId : String
  data : Fido2Data
deriving DecidableEq, Repr

/-- The per-session inbound filter of `messages$`
(`browser-fido2-user-interface.service.ts` lines 157-159): a message
passes only on exact equality of its session id with the id of the
session that owns the subscription. -/
def sessionFilter (sessionId : String) (msg : BrowserFido2Message) : Bool :=
  msg.sessionId == sessionId

/-- The session-visible view of the broadcast channel: the inbound
sequence restricted by `sessionFilter`.  Every subscription of the session
(connect acknowledgment, abort handling, response awaits) is built on this
filtered stream, so messages dropped here reach no handler of the
session. -/
def messagesFor (sessionId : String) (inbound : List BrowserFido2Message) :
    List BrowserFido2Message :=
  inbound.filter (sessionFilter sessionId)

/-- The state flags of a session that the send path consults:
`closed` (set by `close()`, line 323) and the current value of the
`connected$` behavior subject (set to true on `ConnectResponse`, line
181, and never reset). -/
structure SessionState where
  closed : Bool
  connected : Bool
deriving DecidableEq, Repr

/-- One externally visible action of the session. -/
inductive SessionAction
  | closePopout
  | setClosed
  | destroyNext
  | destroyComplete
  | openPopout
  | awaitConnected
  | broadcast (msg : BrowserFido2Message)
deriving DecidableEq, Repr

/-- Whether an action broadcasts a message on the shared channel. -/
def SessionAction.isBroadcast : SessionAction → Bool
  | .broadcast _ => true
  | _ => false

/-- Embedding of `BrowserFido2UserInterfaceSession.connect`
(`browser-fido2-user-interface.service.ts` lines 358-428) at the level
the claims need: a closed session throws `Cannot re-open closed session`
at once; otherwise the session opens its popout and awaits the
`ConnectResponse` acknowledgment (racing the abort signal). -/
def connectSession (st : SessionState) :
    Except String (List SessionAction) :=
  if st.closed then .error "Cannot re-open closed session"
  else .ok [.openPopout, .awaitConnected]

/-- Embedding of `BrowserFido2UserInterfaceSession.send`
(`browser-fido2-user-interface.service.ts` lines 332-337): only when the
`connected$` value is false does the code call `connect()` (whose throw
propagates); in every case that reaches it, the message is broadcast on
the shared channel. -/
def send (st : SessionState) (msg : BrowserFido2Message) :
    Except String (List SessionAction) :=
  if !st.connected then
    match connectSession st with
    | .error e => .error e
    | .ok acts => .ok (acts ++ [.broadcast msg])
  else .ok [.broadcast msg]

/-- The action sequence of `BrowserFido2UserInterfaceSession.close`
(`browser-fido2-user-interface.service.ts` lines 321-326): close the
owned popout, set the `closed` flag, then fire and complete `destroy$`,
which releases every subscription piped through `takeUntil(destroy$)`. -/
def closeTrace : List SessionAction :=
  [.closePopout, .setClosed, .destroyNext, .destroyComplete]

/-- The action sequence of the abort-signal subscriber
(`browser-fido2-user-interface.service.ts` lines 184-193): the handler
calls `close()` (whose body contains no await, so it runs to completion
synchronously) and only then broadcasts the `AbortRequest` notification
for the session. -/
def abortSignalHandler (sid : String) : List SessionAction :=
  closeTrace ++ [.broadcast ⟨sid, .abortRequest⟩]

/-- One event observed by a pending `receive` await: either a message
delivered on the broadcast channel, or the firing of `destroy$`
(teardown), which completes the awaited stream. -/
inductive SessionEvent
  | inbound (m : BrowserFido2Message)
  | destroyed
deriving DecidableEq, Repr

/-- The error classes a session await can fail with: `SessionClosedError`
(`browser-fido2-user-interface.service.ts` lines 34-38) versus an
ordinary abort error carrying an optional reason (such as
`UserRequestedFallbackAbortReason`). -/
inductive SessionError
  | sessionClosed
  | aborted (reason : Option String)
deriving DecidableEq, Repr

/-- Embedding of `BrowserFido2UserInterfaceSession.receive`
(`browser-fido2-user-interface.service.ts` lines 339-356): the await
scans the event sequence for the first channel message matching both the
session id and the requested type; if `destroy$` fires first, the
`takeUntil` completes the stream empty, `firstValueFrom` rejects with
`EmptyError`, and the catch rethrows it as `SessionClosedError`.  A
result of `none` means the await is still pending. -/
def receiveResult (sid : String) (t : String) :
    List SessionEvent → Option (Except SessionError BrowserFido2Message)
  | [] => none
  | .destroyed :: _ => some (.error .sessionClosed)
  | .inbound m :: rest =>
    if m.sessionId == sid && m.data.typeName == t then some (.ok m)
    else receiveResult sid t rest

end Fido2

/-- C1: the claim states that a buffer holding a length prefix followed by
an incomplete payload dispatches nothing and waits, and that one data
event holding two complete frames dispatches exactly two messages in
order.  The code has the comparison on line 188 inverted
(`msgLength + 4 < buffer.length` returns, where its own comment says to
return when the buffer does not yet hold the full message), so a single
data event carrying two complete frames — here two frames with length
prefix 2 and payload bytes 123, 125, the UTF-8 text of an empty JSON
object — makes the loop return immediately: no byte is consumed and zero
messages are dispatched, whatever the JSON parser would return, where the
claim requires two dispatches. -/
theorem claim1_two_frames_dispatch_nothing :
    ∀ parse : List Nat → Option IPC.Msg,
      IPC.processIpcMessage parse {} [2, 0, 0, 0, 123, 125, 2, 0, 0, 0, 123, 125] =
        ({ processOutputBuffer := [2, 0, 0, 0, 123, 125, 2, 0, 0, 0, 123, 125] },
          []) := by
  intro parse
  unfold IPC.processIpcMessage
  rw [IPC.ipcLoop]
  norm_num [IPC.readUInt32LE]

/-- C2: the claim states that a timed-out request has its entry removed
from the pending map so that a same-id response arriving later is treated
as unsolicited.  Because `sendMessage` returns the race promise without
awaiting it, the catch that would delete the entry never runs: after the
timeout for id `m1` fires the entry is still pending (first conjunct), so
the late response is resolved against the stale entry and never reaches
the unsolicited-message handler (second conjunct).  Under the behavior
the spec words (`onTimeoutFiresSpec`) the entry would be gone (third
conjunct) and the same late response would go to the handler (fourth
conjunct). -/
theorem claim2_timeout_leaves_entry_pending :
    IPC.onTimeoutFires { pendingMessages := ["m1"] } "m1" =
        ({ pendingMessages := ["m1"] }, [.callerRejectedTimeout "m1"]) ∧
      IPC.processMessage { pendingMessages := ["m1"] }
          { messageId := some "m1" } =
        ({ pendingMessages := [] },
          [.deferredResolved "m1" { messageId := some "m1" }]) ∧
      IPC.onTimeoutFiresSpec { pendingMessages := ["m1"] } "m1" =
        ({ pendingMessages := [] }, [.callerRejectedTimeout "m1"]) ∧
      IPC.processMessage { pendingMessages := [] }
          { messageId := some "m1" } =
        (({ pendingMessages := [] } : IPC.IPCState),
          [.unsolicited { messageId := some "m1" }]) := by
  refine ⟨rfl, ?_, ?_, ?_⟩ <;> decide

theorem ascii_utf8CharBytes {c : Char} (h : c.toNat < 128) :
    IPC.utf8CharBytes c = [c.toNat] := by
  unfold IPC.utf8CharBytes
  rw [if_pos h]

theorem ascii_utf16Len :
    ∀ {s : List Char}, (∀ c ∈ s, c.toNat < 128) →
      IPC.utf16Len s = s.length := by
  intro s
  induction s with
  | nil => intro; rfl
  | cons c cs ih =>
    intro h
    have hc : c.toNat < 0x10000 :=
      lt_trans (h c (List.mem_cons_self c cs)) (by norm_num)
    simp only [IPC.utf16Len, if_pos hc, List.length_cons]
    rw [ih fun x hx => h x (List.mem_cons_of_mem c hx)]
    omega

theorem ascii_utf8Bytes :
    ∀ {s : List Char}, (∀ c ∈ s, c.toNat < 128) →
      IPC.utf8Bytes s = s.map Char.toNat := by
  intro s
  induction s with
  | nil => intro; rfl
  | cons c cs ih =>
    intro h
    simp only [IPC.utf8Bytes, List.map_cons,
      ascii_utf8CharBytes (h c (List.mem_cons_self c cs)),
      ih fun x hx => h x (List.mem_cons_of_mem c hx)]
    rfl

theorem ascii_bufferWrite :
    ∀ (s : List Char) (cap : Nat), (∀ c ∈ s, c.toNat < 128) →
      s.length ≤ cap → IPC.bufferWrite cap s = s.map Char.toNat := by
  intro s
  induction s with
  | nil => intro cap _ _; rfl
  | cons c cs ih =>
    intro cap h hcap
    have hc := ascii_utf8CharBytes (h c (List.mem_cons_self c cs))
    simp only [IPC.bufferWrite, hc, List.length_singleton, List.map_cons]
    rw [if_pos (by simp at hcap ⊢; omega)]
    rw [ih (cap - 1) (fun x hx => h x (List.mem_cons_of_mem c hx))
      (by simp at hcap; omega)]
    rfl

/-- C3 counterexample: the claim states that the length prefix always
equals the UTF-8 byte count of the JSON text and that exactly those bytes
follow.  The code writes `messageStr.length` — the UTF-16 code-unit
count — and allocates the buffer from that same count, so for the
nine-character JSON text of a message containing a small e with acute
accent (ten UTF-8 bytes) the wire unit has prefix 9 and drops the final
byte of the JSON text: the produced bytes differ from the encoding the
claim describes. -/
theorem claim3_counterexample_non_ascii :
    IPC.sendIpcMessage ['{', '"', 'a', '"', ':', '"', 'é', '"', '}'] ≠
      IPC.specWireEncoding ['{', '"', 'a', '"', ':', '"', 'é', '"', '}'] := by
  decide

/-- C3 amended: for every message whose JSON serialization contains only
ASCII characters (which covers every message the test runner itself
builds), the UTF-16 length equals the UTF-8 byte count and the buffer is
exactly filled, so the wire encoding is the 4-byte little-endian byte
count of the UTF-8 JSON text immediately followed by exactly those bytes,
as the claim states.  For non-ASCII text the prefix is the UTF-16 unit
count and the payload is truncated (see the counterexample). -/
theorem claim3_amended_ascii_framing :
    ∀ s : List Char, (∀ c ∈ s, c.toNat < 128) →
      IPC.sendIpcMessage s = IPC.specWireEncoding s := by
  intro s h
  show IPC.writeUInt32LE (IPC.utf16Len s) ++ IPC.bufferWrite (IPC.utf16Len s) s ++
      List.replicate (IPC.utf16Len s - (IPC.bufferWrite (IPC.utf16Len s) s).length) 0 =
    IPC.writeUInt32LE (IPC.utf8Bytes s).length ++ IPC.utf8Bytes s
  rw [ascii_utf16Len h, ascii_utf8Bytes h,
    ascii_bufferWrite s s.length h (le_refl _)]
  simp

/-- C3 amended witness at the serialized empty JSON object. -/
theorem claim3_amended_ascii_framing_witness :
    IPC.sendIpcMessage ['{', '}'] = IPC.specWireEncoding ['{', '}'] :=
  claim3_amended_ascii_framing ['{', '}'] (by decide)

/-- C4: calling `sendMessage` with a `messageId` that is already pending
rejects with the duplicate-id error as its only effect: the state is
returned unchanged — so the earlier pending request with that id is still
pending and untouched — and in particular nothing is written to the
process stream (the rejection is the only observable). -/
theorem claim4_duplicate_id_rejects_before_write :
    ∀ (serialize : IPC.Msg → List Char) (st : IPC.IPCState) (m : IPC.Msg)
      (mid : String),
      m.messageId = some mid → st.pendingMessages.contains mid = true →
      IPC.sendMessageCall serialize st m =
        (st, [.callerRejectedDuplicate mid]) := by
  intro serialize st m mid hm hpend
  unfold IPC.sendMessageCall
  rw [hm]
  simp only [Option.getD_some]
  rw [if_pos hpend]

/-- C4 witness: a second send of id m1 while m1 is pending rejects with
the duplicate error and leaves the state untouched. -/
theorem claim4_duplicate_id_rejects_before_write_witness :
    IPC.sendMessageCall (fun _ => []) { pendingMessages := ["m1"] }
        { messageId := some "m1" } =
      ({ pendingMessages := ["m1"] }, [.callerRejectedDuplicate "m1"]) :=
  claim4_duplicate_id_rejects_before_write (fun _ => [])
    { pendingMessages := ["m1"] } { messageId := some "m1" } "m1" rfl
    (by decide)

/-- C5: idempotence of `connect()`: from the connected state the call
returns immediately and changes nothing; from the connecting state it
only adds one waiter to the awaiting-connection set — no second process
is spawned and the state record is otherwise unchanged; the readiness
message with command `connected` resolves every current waiter together
and clears the set; a process error rejects every current waiter together
and clears the set. -/
theorem claim5_connect_idempotent :
    ∀ st : IPC.IPCState,
      (st.connectionState = .connected →
        IPC.connect st = (st, .resolvedImmediately)) ∧
      (st.connectionState = .connecting →
        IPC.connect st =
          ({ st with awaitingConnection := st.awaitingConnection + 1 },
            .pendingWaiter)) ∧
      (∀ m : IPC.Msg, m.command = some "connected" →
        IPC.handleDecoded st m =
          ({ st with connectionState := .connected, awaitingConnection := 0 },
            [.connectWaitersResolved st.awaitingConnection])) ∧
      IPC.onProcessError st =
        ({ st with awaitingConnection := 0 },
          [.connectWaitersRejected st.awaitingConnection]) := by
  intro st
  refine ⟨?_, ?_, ?_, rfl⟩
  · intro h
    unfold IPC.connect
    rw [if_pos h]
  · intro h
    unfold IPC.connect
    rw [if_neg (by rw [h]; intro hc; cases hc),
      if_neg (by rw [h]; intro hc; cases hc)]
  · intro m hm
    unfold IPC.handleDecoded
    rw [if_pos hm]

/-- C5 witness: each conjunct applied at a concrete state. -/
theorem claim5_connect_idempotent_witness :
    IPC.connect { connectionState := .connected } =
        ({ connectionState := .connected }, .resolvedImmediately) ∧
      IPC.connect { connectionState := .connecting, awaitingConnection := 1 } =
        ({ connectionState := .connecting, awaitingConnection := 2 },
          .pendingWaiter) ∧
      IPC.handleDecoded { awaitingConnection := 2 }
          { command := some "connected" } =
        ({ connectionState := .connected, awaitingConnection := 0 },
          [.connectWaitersResolved 2]) ∧
      IPC.onProcessError { awaitingConnection := 2 } =
        ({ awaitingConnection := 0 }, [.connectWaitersRejected 2]) :=
  ⟨(claim5_connect_idempotent { connectionState := .connected }).1 rfl,
    (claim5_connect_idempotent
      { connectionState := .connecting, awaitingConnection := 1 }).2.1 rfl,
    (claim5_connect_idempotent { awaitingConnection := 2 }).2.2.1
      { command := some "connected" } rfl,
    (claim5_connect_idempotent { awaitingConnection := 2 }).2.2.2⟩

/-- C10: dispatching a decoded message with command `disconnected` sets
the connection state to Disconnected and does nothing else: the resulting
state differs from the input only in `connectionState`, the pending map
and the awaiting-connection set are exactly as before, and no observable
effect is produced (no pending request is resolved or rejected). -/
theorem claim10_disconnected_frame_effect :
    ∀ (st : IPC.IPCState) (m : IPC.Msg), m.command = some "disconnected" →
      IPC.handleDecoded st m =
        ({ st with connectionState := .disconnected }, []) := by
  intro st m hm
  unfold IPC.handleDecoded
  rw [if_neg (by rw [hm]; decide), if_pos hm]

/-- C10 witness: the disconnected command at a state with a pending
request and a connect waiter leaves both untouched. -/
theorem claim10_disconnected_frame_effect_witness :
    IPC.handleDecoded
        { connectionState := .connected, pendingMessages := ["m1"],
          awaitingConnection := 1 }
        { command := some "disconnected" } =
      ({ connectionState := .disconnected, pendingMessages := ["m1"],
          awaitingConnection := 1 }, []) :=
  claim10_disconnected_frame_effect
    { connectionState := .connected, pendingMessages := ["m1"],
      awaitingConnection := 1 }
    { command := some "disconnected" } rfl

/-- C6: session isolation.  For two distinct session ids, a broadcast
message carrying the id of session A fails the inbound filter of session
B (first conjunct), is absent from the filtered stream every handler of B
is built on — inserting it anywhere into the inbound sequence leaves that
stream unchanged (second conjunct) — and leaves the outcome of any
pending `receive` of B, for any requested type, unchanged (third
conjunct).  The session-id filter is applied before any type-based
branching, so the non-matching message is simply ignored. -/
theorem claim6_session_isolation :
    ∀ sidA sidB : String, sidA ≠ sidB →
      ∀ m : Fido2.BrowserFido2Message, m.sessionId = sidA →
        ∀ pre post : List Fido2.BrowserFido2Message,
          Fido2.sessionFilter sidB m = false ∧
          Fido2.messagesFor sidB (pre ++ m :: post) =
            Fido2.messagesFor sidB (pre ++ post) ∧
          ∀ t : String,
            Fido2.receiveResult sidB t ((pre ++ m :: post).map .inbound) =
              Fido2.receiveResult sidB t ((pre ++ post).map .inbound) := by
  intro sidA sidB hne m hm pre post
  have hfilter : Fido2.sessionFilter sidB m = false := by
    simp [Fido2.sessionFilter, hm, hne]
  refine ⟨hfilter, ?_, ?_⟩
  · simp [Fido2.messagesFor, List.filter_append, hfilter]
  · intro t
    induction pre with
    | nil =>
      simp only [List.nil_append, List.map_cons, Fido2.receiveResult]
      rw [if_neg (by simp [hm, hne])]
    | cons x xs ih =>
      simp only [List.cons_append, List.map_cons, Fido2.receiveResult]
      split
      · rfl
      · exact ih

/-- C6 witness: with concrete distinct ids, a message of session A is
dropped by the filter of session B and does not change what a pending
receive of B returns. -/
theorem claim6_session_isolation_witness :
    Fido2.sessionFilter "B" ⟨"A", .abortRequest⟩ = false ∧
      Fido2.messagesFor "B" [⟨"A", .abortRequest⟩] = Fido2.messagesFor "B" [] ∧
      ∀ t : String,
        Fido2.receiveResult "B" t [.inbound ⟨"A", .abortRequest⟩] =
          Fido2.receiveResult "B" t [] :=
  ⟨(claim6_session_isolation "A" "B" (by decide) ⟨"A", .abortRequest⟩ rfl
      [] []).1,
    (claim6_session_isolation "A" "B" (by decide) ⟨"A", .abortRequest⟩ rfl
      [] []).2.1,
    (claim6_session_isolation "A" "B" (by decide) ⟨"A", .abortRequest⟩ rfl
      [] []).2.2⟩

/-- C7 counterexample: the claim states that once the closed flag is true
no operation broadcasts for the session.  The closed flag is consulted
only inside `connect()`, and `send` calls `connect()` only when the
`connected$` value is false; `close()` never resets `connected$`.  So on
a session that was connected when it closed, a send still broadcasts: at
the concrete state with closed and connected both true, `send` succeeds
and emits the broadcast instead of failing. -/
theorem claim7_counterexample_send_after_close :
    Fido2.send { closed := true, connected := true }
        ⟨"sid", .pickCredentialRequest ["c1"] false true⟩ =
      .ok [.broadcast ⟨"sid", .pickCredentialRequest ["c1"] false true⟩] ∧
      ({ closed := true, connected := true } : Fido2.SessionState).closed =
        true :=
  ⟨rfl, rfl⟩

/-- C7 amended: a closed session cannot reconnect — `connect()` always
fails with the re-open error — and a public operation that sends after
close fails, rather than broadcasting, whenever the session is not
connected (the only case in which the send path consults the closed
flag).  A send on a session whose `connected$` value was still true when
it closed is not guarded (see the counterexample). -/
theorem claim7_amended_closed_guard :
    ∀ (st : Fido2.SessionState) (msg : Fido2.BrowserFido2Message),
      st.closed = true →
      Fido2.connectSession st = .error "Cannot re-open closed session" ∧
      (st.connected = false →
        Fido2.send st msg = .error "Cannot re-open closed session") := by
  intro st msg hc
  have hcs : Fido2.connectSession st =
      .error "Cannot re-open closed session" := by
    unfold Fido2.connectSession
    rw [if_pos hc]
  refine ⟨hcs, fun hconn => ?_⟩
  unfold Fido2.send
  rw [hconn, hcs]
  rfl

/-- C7 amended witness at a closed, never-connected session. -/
theorem claim7_amended_closed_guard_witness :
    Fido2.connectSession { closed := true, connected := false } =
        .error "Cannot re-open closed session" ∧
      Fido2.send { closed := true, connected := false }
          ⟨"sid", .abortRequest⟩ =
        .error "Cannot re-open closed session" :=
  ⟨(claim7_amended_closed_guard { closed := true, connected := false }
      ⟨"sid", .abortRequest⟩ rfl).1,
    (claim7_amended_closed_guard { closed := true, connected := false }
      ⟨"sid", .abortRequest⟩ rfl).2 rfl⟩

/-- C8: if `destroy$` fires (teardown) while a `receive` await is pending
and no earlier event matched the await, the await fails with the
session-closed error — the stream completes empty, `firstValueFrom`
rejects with `EmptyError`, and the catch rethrows `SessionClosedError` —
and that error is distinct from every ordinary abort error. -/
theorem claim8_teardown_fails_session_closed :
    ∀ (sid t : String) (pre post : List Fido2.SessionEvent),
      (∀ m : Fido2.BrowserFido2Message, .inbound m ∈ pre →
        (m.sessionId == sid && m.data.typeName == t) = false) →
      Fido2.receiveResult sid t (pre ++ .destroyed :: post) =
          some (.error .sessionClosed) ∧
      ∀ reason, Fido2.SessionError.sessionClosed ≠ .aborted reason := by
  intro sid t pre post h
  refine ⟨?_, fun r hr => by cases hr⟩
  induction pre with
  | nil => rfl
  | cons e rest ih =>
    cases e with
    | destroyed => rfl
    | inbound m =>
      simp only [List.cons_append, Fido2.receiveResult]
      rw [if_neg (by simp [h m (List.mem_cons_self _ _)])]
      exact ih fun m' hm' => h m' (List.mem_cons_of_mem _ hm')

/-- C8 witness: a pending receive that saw only a non-matching message
before teardown fails with the session-closed error. -/
theorem claim8_teardown_fails_session_closed_witness :
    Fido2.receiveResult "A" "PickCredentialResponse"
        [.inbound ⟨"B", .abortResponse true⟩, .destroyed] =
      some (.error .sessionClosed) ∧
      Fido2.SessionError.sessionClosed ≠ .aborted none :=
  ⟨(claim8_teardown_fails_session_closed "A" "PickCredentialResponse"
      [.inbound ⟨"B", .abortResponse true⟩] []
      (by
        intro m hm
        rw [List.mem_singleton] at hm
        injection hm with h2
        subst h2
        decide)).1,
    (claim8_teardown_fails_session_closed "A" "PickCredentialResponse"
      [.inbound ⟨"B", .abortResponse true⟩] []
      (by
        intro m hm
        rw [List.mem_singleton] at hm
        injection hm with h2
        subst h2
        decide)).2 none⟩

/-- C9: teardown ordering on abort.  In the action sequence of the
abort-signal subscriber, every broadcast (the `AbortRequest`
notification) comes strictly after every non-broadcast action (closing
the popout, setting the closed flag, firing and completing `destroy$`,
which releases the subscriptions): the handler runs `close()` to
completion before emitting the abort broadcast. -/
theorem claim9_abort_broadcast_last :
    ∀ (sid : String) (i j : Nat),
      j < (Fido2.abortSignalHandler sid).length →
      ((Fido2.abortSignalHandler sid).getD i .closePopout).isBroadcast =
        true →
      ((Fido2.abortSignalHandler sid).getD j .closePopout).isBroadcast =
        false →
      j < i := by
  intro sid i j hj hi hjb
  have hlen : (Fido2.abortSignalHandler sid).length = 5 := rfl
  rw [hlen] at hj
  have hi4 : 4 ≤ i := by
    by_contra hlt
    push_neg at hlt
    interval_cases i <;> exact Bool.noConfusion hi
  have hj4 : j ≠ 4 := fun h => by subst h; exact Bool.noConfusion hjb
  omega

/-- C9 witness: in the handler of a concrete session, the broadcast at
position 4 comes after the popout-closing action at position 0. -/
theorem claim9_abort_broadcast_last_witness :
    0 < (Fido2.abortSignalHandler "session").length ∧ (0 : Nat) < 4 :=
  ⟨by decide,
    claim9_abort_broadcast_last "session" 4 0 (by decide) rfl rfl⟩
